import Mathlib

/-!
Shallow embedding of the orange-refinery swap pipeline.

The embedded code comes from:
* `src/lib/webhook-management.ts` (swap-transaction construction half):
  `buildSwapTransaction`, `submitSwapWithVaultFees`, `buildSwapFeeToSolTransaction`;
* `src/app/api/webhook/route.ts`: `processHeliusTransaction` (token-transfer
  dispatch loop), `isVaultAddress`, `getVaultOwnerFromAddress`, and the fee-split
  arithmetic.

Network effects (Jupiter quote/swap responses, RPC balance reads, the fee probe,
the relayer submission) are passed in explicitly as environment records, so each
builder is a pure function of its inputs exactly mirroring the control
flow. Byte buffers are `List Nat` of byte values; JavaScript `BigInt` arithmetic
is `Int` with `Int.tdiv` (truncation toward zero, as `/` on `BigInt`).
-/

namespace OrangeRefinery

/-! ### Byte-level encoding

`encodeUIntLE w n` models `BN.toArrayLike(Buffer, "le", w)` and
`Buffer.writeUInt32LE`: the little-endian bytes of `n` at width `w`. -/

def encodeUIntLE : Nat → Nat → List Nat
  | 0, _ => []
  | w + 1, n => n % 256 :: encodeUIntLE w (n / 256)

def encodeU64LE (n : Nat) : List Nat := encodeUIntLE 8 n

def encodeU32LE (n : Nat) : List Nat := encodeUIntLE 4 n

/-- Value of a little-endian byte list. -/
def fromLEBytes (bs : List Nat) : Nat := bs.foldr (fun b acc => b + 256 * acc) 0

/-! ### Data model: accounts, instructions, transactions -/

structure AccountMeta where
  pubkey : String
  isSigner : Bool
  isWritable : Bool
deriving DecidableEq, Repr

structure Instruction where
  programId : String
  keys : List AccountMeta
  data : List Nat
deriving DecidableEq, Repr

structure SolTransaction where
  instructions : List Instruction
  recentBlockhash : Option String
  feePayer : Option String
deriving DecidableEq, Repr

/-! ### Constants from `src/lib/webhook-management.ts` -/

def PROGRAM_ID : String := "8FaCEp8fDiBwSiqqg2vmNABvTjVfoe65qZLKT9SNGfhA"

def JUPITER_PROGRAM_ID : String := "JUP6LkbZbjS1jKKwapdHNy74zcZ3tLUZoi5QNyVTaV4"

def FEE_RECIPIENT : String := "GongV8jcP3FEP4FejLaXbwuUVewtRLCVY2Uiw8bHVeGC"

def TOKEN_PROGRAM_ID : String := "TokenkegQfeZyiNwAJbNbGKPFXCWuBvf9Ss623VQ5DA"

def SYSTEM_PROGRAM_ID : String := "11111111111111111111111111111111"

def swapToCbbtcDiscriminator : List Nat := [73, 17, 223, 215, 78, 128, 160, 80]

def swapFeeToSolDiscriminator : List Nat := [98, 85, 227, 2, 32, 184, 191, 80]

def coverFeeDiscriminator : List Nat := [64, 23, 219, 120, 75, 63, 68, 190]

/-- Minimum vault SOL balance in lamports (`minRequiredBalance` in both
`buildSwapTransaction` and `submitSwapWithVaultFees`). -/
def minRequiredBalance : Nat := 100000

/-! ### Quote parsing

`outAmountToMin` models `BigInt(quote.outAmount || "0")`: a missing `outAmount`
field, or an empty string (both falsy), fall back to `"0"`; otherwise the
decimal string is parsed. -/

def decimalStringToNat (s : String) : Nat :=
  s.data.foldl (fun acc c => acc * 10 + (c.toNat - 48)) 0

def outAmountToMin (outAmount : Option String) : Nat :=
  match outAmount with
  | none => 0
  | some s => if s = "" then 0 else decimalStringToNat s

/-! ### Fee estimator

`baseFee` models `feeEstimate?.value || 50000`: the probe result is `none` when
`getFeeForMessage` yields no value, `some v` when the network priced the probe
message at `v` lamports. Note the JavaScript `||` also replaces a returned
value of `0` by the fallback. -/

def fallbackBaseFee : Nat := 50000

def coverFeeInstructionCost : Nat := 10000

def baseFee (probe : Option Nat) : Nat :=
  match probe with
  | some v => if v = 0 then fallbackBaseFee else v
  | none => fallbackBaseFee

def estimatedFee (probe : Option Nat) : Nat := baseFee probe + coverFeeInstructionCost

/-- Modelled from the spec: the spec describes the base fee as "the returned
value, or a conservative fallback constant if pricing is unavailable", with no
special treatment of a returned value of zero. Compared against `baseFee`. -/
def specBaseFee (probe : Option Nat) : Nat :=
  match probe with
  | some v => v
  | none => fallbackBaseFee

/-! ### Jupiter account-list fixup

Models the block that looks up the vault in `jupiterInstruction.keys`
(`jupiterAccounts.find(acc => acc.pubkey.equals(vault))`), marks the found
entry as a signer, and otherwise `unshift`s the vault as first account flagged
signer and writable. Both build functions perform the same fixup. -/

def markFirstVaultSigner (vault : String) : List AccountMeta → List AccountMeta
  | [] => []
  | a :: rest =>
    if a.pubkey = vault then { a with isSigner := true } :: rest
    else a :: markFirstVaultSigner vault rest

def ensureVaultSigner (vault : String) (accs : List AccountMeta) : List AccountMeta :=
  if accs.any (fun a => a.pubkey == vault) then markFirstVaultSigner vault accs
  else ⟨vault, true, true⟩ :: accs

/-! ### Instruction data (InstructionEncoder)

Anchor layout: 8-byte discriminator, then `u64 amountIn`, `u64 minAmountOut`,
`u32` length-prefixed route bytes (`Vec<u8>`). -/

def swapArgsData (amountIn minAmountOut : Nat) (routeBytes : List Nat) : List Nat :=
  encodeU64LE amountIn ++ encodeU64LE minAmountOut ++
    encodeU32LE routeBytes.length ++ routeBytes

def swapToCbbtcInstructionData (amountIn minAmountOut : Nat) (routeBytes : List Nat) :
    List Nat :=
  swapToCbbtcDiscriminator ++ swapArgsData amountIn minAmountOut routeBytes

def swapFeeToSolInstructionData (amountIn minAmountOut : Nat) (routeBytes : List Nat) :
    List Nat :=
  swapFeeToSolDiscriminator ++ swapArgsData amountIn minAmountOut routeBytes

def coverFeeInstructionData (feeAmount : Nat) : List Nat :=
  coverFeeDiscriminator ++ encodeU64LE feeAmount

/-- Decoder for the swap payload, per the deserialization
rules: skip the 8-byte discriminator, read `u64 | u64 | u32 len | len bytes`. -/
def decodeSwapPayload (d : List Nat) : Option (Nat × Nat × List Nat) :=
  let rest := d.drop 8
  if rest.length < 20 then none
  else
    let amountIn := fromLEBytes (rest.take 8)
    let minAmountOut := fromLEBytes ((rest.drop 8).take 8)
    let len := fromLEBytes ((rest.drop 16).take 4)
    if (rest.drop 20).length < len then none
    else some (amountIn, minAmountOut, (rest.drop 20).take len)

/-! ### `buildSwapTransaction` (primary swap leg)

The environment record carries everything `buildSwapTransaction` obtains from
the outside world, in the order the source consumes it: derived addresses,
the vault token-account read, the vault SOL balance, the two Jupiter responses
(quote and swap, with the deserialized instruction list of the returned
transaction), the blockhash, the relayer public key, and the fee-probe result. -/

structure SwapBuildEnv where
  cbbtcMint : String
  vault : String
  vaultTokenAccount : String
  feeTokenAccount : String
  cbbtcAta : String
  vaultTokenBalance : Option Nat
  vaultSolBalance : Nat
  quoteOk : Bool
  quoteOutAmount : Option String
  swapOk : Bool
  swapTxInstructions : List Instruction
  blockhash : String
  relayerPubkey : String
  feeProbe : Option Nat

def insufficientSolMsg (balance : Nat) : String :=
  "Vault has insufficient SOL balance: " ++ toString balance ++
    " lamports. Minimum required: 100000 lamports (0.0001 SOL). " ++
    "Fund the vault using the fund_vault_sol instruction first."

/-- The `swap_to_cbbtc` instruction assembled in Step 6 of the source: fixed
ten-account list, then the Jupiter accounts (with the vault-signer fixup)
appended as remaining accounts. -/
def mkSwapToCbbtcInstruction (env : SwapBuildEnv) (vaultOwner inputMint : String)
    (amount : Nat) (jupiterInstruction : Instruction) : Instruction :=
  { programId := PROGRAM_ID
    keys := [⟨env.vault, false, false⟩,
             ⟨vaultOwner, false, false⟩,
             ⟨inputMint, false, false⟩,
             ⟨env.cbbtcMint, false, false⟩,
             ⟨env.vaultTokenAccount, false, true⟩,
             ⟨env.feeTokenAccount, false, true⟩,
             ⟨env.cbbtcAta, false, true⟩,
             ⟨JUPITER_PROGRAM_ID, false, false⟩,
             ⟨TOKEN_PROGRAM_ID, false, false⟩,
             ⟨SYSTEM_PROGRAM_ID, false, false⟩] ++
            ensureVaultSigner env.vault jupiterInstruction.keys
    data := swapToCbbtcInstructionData amount (outAmountToMin env.quoteOutAmount)
              jupiterInstruction.data }

/-- The `cover_transaction_fees` instruction carrying the estimator output. -/
def mkCoverFeeInstruction (vault vaultOwner relayerPubkey : String) (fee : Nat) :
    Instruction :=
  { programId := PROGRAM_ID
    keys := [⟨vault, false, true⟩,
             ⟨vaultOwner, false, false⟩,
             ⟨relayerPubkey, false, true⟩,
             ⟨SYSTEM_PROGRAM_ID, false, false⟩]
    data := coverFeeInstructionData fee }

def buildSwapTransaction (env : SwapBuildEnv) (vaultOwner inputMint : String)
    (amount : Nat) : Except String SolTransaction :=
  match env.vaultTokenBalance with
  | none => .error "Vault token account does not exist"
  | some bal =>
    if bal < amount then
      .error ("Insufficient balance. Vault has " ++ toString bal ++ ", need " ++
        toString amount)
    else if env.vaultSolBalance < minRequiredBalance then
      .error (insufficientSolMsg env.vaultSolBalance)
    else if !env.quoteOk then
      .error "Failed to get quote from Jupiter"
    else if !env.swapOk then
      .error "Failed to get swap transaction from Jupiter"
    else
      match env.swapTxInstructions.find? (fun ix => ix.programId == JUPITER_PROGRAM_ID) with
      | none => .error "Jupiter swap instruction not found in transaction"
      | some jupiterInstruction =>
        let swapInstruction :=
          mkSwapToCbbtcInstruction env vaultOwner inputMint amount jupiterInstruction
        let coverFeeInstruction :=
          mkCoverFeeInstruction env.vault vaultOwner env.relayerPubkey
            (estimatedFee env.feeProbe)
        .ok { instructions := [coverFeeInstruction, swapInstruction]
              recentBlockhash := some env.blockhash
              feePayer := some env.relayerPubkey }

/-! ### `submitSwapWithVaultFees`

The balance guard runs before the relayer is touched; `relaySubmit` stands for
the `submitViaRelayer` network effect and is only consulted when the guard
passes. -/

def submitSwapWithVaultFees (vaultBalance : Nat)
    (relaySubmit : Except String String) : Except String String :=
  if vaultBalance < minRequiredBalance then
    .error (insufficientSolMsg vaultBalance)
  else relaySubmit

/-! ### `buildSwapFeeToSolTransaction` (fee-conversion leg) -/

structure FeeSwapBuildEnv where
  vault : String
  vaultFeeTokenAccount : String
  quoteOk : Bool
  quoteOutAmount : Option String
  swapOk : Bool
  swapTxInstructions : List Instruction
  blockhash : String
  relayerPubkey : String
  feeProbe : Option Nat

/-- The `swap_fee_to_sol` instruction: fixed eight-account list, then the
Jupiter accounts (with the vault-signer fixup) appended. -/
def mkSwapFeeToSolInstruction (env : FeeSwapBuildEnv) (vaultOwner feeTokenMint : String)
    (feeAmount : Nat) (jupiterInstruction : Instruction) : Instruction :=
  { programId := PROGRAM_ID
    keys := [⟨env.vault, false, true⟩,
             ⟨vaultOwner, false, false⟩,
             ⟨feeTokenMint, false, false⟩,
             ⟨env.vaultFeeTokenAccount, false, true⟩,
             ⟨FEE_RECIPIENT, false, true⟩,
             ⟨JUPITER_PROGRAM_ID, false, false⟩,
             ⟨TOKEN_PROGRAM_ID, false, false⟩,
             ⟨SYSTEM_PROGRAM_ID, false, false⟩] ++
            ensureVaultSigner env.vault jupiterInstruction.keys
    data := swapFeeToSolInstructionData feeAmount (outAmountToMin env.quoteOutAmount)
              jupiterInstruction.data }

def buildSwapFeeToSolTransaction (env : FeeSwapBuildEnv) (vaultOwner feeTokenMint : String)
    (feeAmount : Nat) : Except String SolTransaction :=
  if !env.quoteOk then
    .error "Failed to get quote for fee-to-SOL swap from Jupiter"
  else if !env.swapOk then
    .error "Failed to get fee-to-SOL swap transaction from Jupiter"
  else
    match env.swapTxInstructions.find? (fun ix => ix.programId == JUPITER_PROGRAM_ID) with
    | none => .error "Jupiter swap instruction not found for fee-to-SOL swap"
    | some jupiterInstruction =>
      let swapFeeToSolInstruction :=
        mkSwapFeeToSolInstruction env vaultOwner feeTokenMint feeAmount jupiterInstruction
      let coverFeeInstruction :=
        mkCoverFeeInstruction env.vault vaultOwner env.relayerPubkey
          (estimatedFee env.feeProbe)
      .ok { instructions := [coverFeeInstruction, swapFeeToSolInstruction]
            recentBlockhash := some env.blockhash
            feePayer := some env.relayerPubkey }

/-! ### Fee split (`src/app/api/webhook/route.ts`, after the primary swap)

`const totalFee = (amount * 100n) / 10000n; const feeToVault = (totalFee * 4n) / 10n`.
`BigInt` division truncates toward zero, which is `Int.tdiv`. -/

def computeTotalFee (amountIn : Int) : Int := Int.tdiv (amountIn * 100) 10000

def computeFeeToVault (amountIn : Int) : Int :=
  Int.tdiv (computeTotalFee amountIn * 4) 10

/-! ### Webhook dispatcher (`processHeliusTransaction`, token-transfer loop)

Network effects in the loop body are injected: `pubkeyParses` is whether
`new PublicKey(address)` succeeds, `ownerLookup` is the vault-owner account
lookup, and `swapLeg`/`feeLeg` stand for the awaited network pipelines
(`buildSwapTransaction` + `submitSwapWithVaultFees`, and
`buildSwapFeeToSolTransaction` + `submitSwapWithVaultFees`); each takes the
vault owner, the mint, and the amount, and returns the submitted signature or
the raised error. The `try`/`catch` around the pipeline becomes the `Except`
match: a raised error is converted into a logged failure outcome instead of
propagating. -/

structure TokenTransfer where
  toTokenAccount : String
  mint : String
  tokenAmount : Nat
deriving DecidableEq, Repr

structure DispatchEnv where
  pubkeyParses : String → Bool
  ownerLookup : String → Option String
  cbbtcMint : String
  swapLeg : String → String → Nat → Except String String
  feeLeg : String → String → Nat → Except String String

/-- Models `isVaultAddress` from `route.ts`: after a successful `PublicKey`
parse it unconditionally returns `true` (placeholder noted in the source). -/
def isVaultAddress (pubkeyParses : String → Bool) (address : String) : Bool :=
  pubkeyParses address

/-- Models `getVaultOwnerFromAddress` from `route.ts`: the body always returns
`null` (placeholder noted in the source). -/
def getVaultOwnerFromAddress (_vaultAddress : String) : Option String := none

inductive TransferOutcome where
  | skipped
  | submitted (swapSig : String) (feeLegSig : Option String)
  | failed (err : String)
deriving DecidableEq, Repr

def processTokenTransfer (env : DispatchEnv) (t : TokenTransfer) : TransferOutcome :=
  if isVaultAddress env.pubkeyParses t.toTokenAccount then
    match env.ownerLookup t.toTokenAccount with
    | some vaultOwner =>
      if t.mint ≠ env.cbbtcMint ∧ 0 < t.tokenAmount then
        match env.swapLeg vaultOwner t.mint t.tokenAmount with
        | .error e => .failed e
        | .ok sig =>
          let feeToVault := computeFeeToVault (t.tokenAmount : Int)
          if 0 < feeToVault then
            match env.feeLeg vaultOwner t.mint feeToVault.toNat with
            | .error e => .failed e
            | .ok feeSig => .submitted sig (some feeSig)
          else .submitted sig none
      else .skipped
    | none => .skipped
  else .skipped

def processHeliusTokenTransfers (env : DispatchEnv) (ts : List TokenTransfer) :
    List TransferOutcome :=
  ts.map (processTokenTransfer env)

/-- The dispatch environment exactly as wired in `route.ts`: the owner lookup
is the `getVaultOwnerFromAddress` of the source. -/
def sourceDispatchEnv (pubkeyParses : String → Bool) (cbbtcMint : String)
    (swapLeg feeLeg : String → String → Nat → Except String String) : DispatchEnv :=
  { pubkeyParses := pubkeyParses
    ownerLookup := getVaultOwnerFromAddress
    cbbtcMint := cbbtcMint
    swapLeg := swapLeg
    feeLeg := feeLeg }

/-! ### Sample inputs used to evaluate the builders on concrete data -/

def isSubmittedOutcome : TransferOutcome → Bool
  | .submitted _ _ => true
  | _ => false

def isFailedOutcome : TransferOutcome → Bool
  | .failed _ => true
  | _ => false

def c1JupiterIx : Instruction :=
  { programId := JUPITER_PROGRAM_ID
    keys := [⟨"JupAcc1", false, true⟩]
    data := [9, 9, 9] }

def c1SwapEnv : SwapBuildEnv :=
  { cbbtcMint := "CbbtcMint1"
    vault := "Vault111"
    vaultTokenAccount := "VaultTokenAcc1"
    feeTokenAccount := "FeeTokenAcc1"
    cbbtcAta := "CbbtcAta1"
    vaultTokenBalance := some 2000000
    vaultSolBalance := 150000
    quoteOk := true
    quoteOutAmount := some "777"
    swapOk := true
    swapTxInstructions := [c1JupiterIx]
    blockhash := "Blockhash1"
    relayerPubkey := "Relayer1"
    feeProbe := some 5000 }

def c1FeeEnv : FeeSwapBuildEnv :=
  { vault := "Vault111"
    vaultFeeTokenAccount := "VaultFeeTokenAcc1"
    quoteOk := true
    quoteOutAmount := some "5"
    swapOk := true
    swapTxInstructions := [c1JupiterIx]
    blockhash := "Blockhash1"
    relayerPubkey := "Relayer1"
    feeProbe := none }

def c1SwapTx : SolTransaction :=
  { instructions :=
      [mkCoverFeeInstruction "Vault111" "Owner1" "Relayer1" (estimatedFee (some 5000)),
       mkSwapToCbbtcInstruction c1SwapEnv "Owner1" "MintX" 1000000 c1JupiterIx]
    recentBlockhash := some "Blockhash1"
    feePayer := some "Relayer1" }

def c1FeeTx : SolTransaction :=
  { instructions :=
      [mkCoverFeeInstruction "Vault111" "Owner1" "Relayer1" (estimatedFee none),
       mkSwapFeeToSolInstruction c1FeeEnv "Owner1" "MintX" 4000 c1JupiterIx]
    recentBlockhash := some "Blockhash1"
    feePayer := some "Relayer1" }

def c10SwapEnv : SwapBuildEnv :=
  { c1SwapEnv with quoteOutAmount := none }

def c7FailingTransfer : TokenTransfer :=
  { toTokenAccount := "VaultPda11111"
    mint := "MintX"
    tokenAmount := 1000000 }

def c8Env : DispatchEnv :=
  { pubkeyParses := fun _ => true
    ownerLookup := fun _ => some "Owner1"
    cbbtcMint := "CbbtcMint1"
    swapLeg := fun _ _ amt => if amt == 5 then .error "swap failed" else .ok "swapSig"
    feeLeg := fun _ _ _ => .ok "feeSig" }

def c8T1 : TokenTransfer := { toTokenAccount := "Vault111", mint := "MintX", tokenAmount := 5 }

def c8T2 : TokenTransfer := { toTokenAccount := "Vault111", mint := "MintX", tokenAmount := 7 }

/-! ### Lemmas about the byte encoders -/

theorem encodeUIntLE_length (w n : Nat) : (encodeUIntLE w n).length = w := by
  induction w generalizing n with
  | zero => rfl
  | succ w ih => simp [encodeUIntLE, ih]

theorem fromLEBytes_encodeUIntLE (w n : Nat) :
    fromLEBytes (encodeUIntLE w n) = n % 256 ^ w := by
  induction w generalizing n with
  | zero => simp [encodeUIntLE, fromLEBytes, Nat.mod_one]
  | succ w ih =>
    have h : fromLEBytes (encodeUIntLE (w + 1) n)
        = n % 256 + 256 * fromLEBytes (encodeUIntLE w (n / 256)) := rfl
    rw [h, ih, pow_succ, mul_comm (256 ^ w) 256, Nat.mod_mul]

theorem fromLEBytes_encodeU64LE (n : Nat) (h : n < 2 ^ 64) :
    fromLEBytes (encodeU64LE n) = n := by
  have h256 : (256 : Nat) ^ 8 = 2 ^ 64 := by norm_num
  rw [encodeU64LE, fromLEBytes_encodeUIntLE, h256, Nat.mod_eq_of_lt h]

theorem fromLEBytes_encodeU32LE (n : Nat) (h : n < 2 ^ 32) :
    fromLEBytes (encodeU32LE n) = n := by
  have h256 : (256 : Nat) ^ 4 = 2 ^ 32 := by norm_num
  rw [encodeU32LE, fromLEBytes_encodeUIntLE, h256, Nat.mod_eq_of_lt h]

/-! ### Layout lemmas for the encoded payloads -/

theorem encodeU64LE_length (n : Nat) : (encodeU64LE n).length = 8 :=
  encodeUIntLE_length 8 n

theorem encodeU32LE_length (n : Nat) : (encodeU32LE n).length = 4 :=
  encodeUIntLE_length 4 n

theorem swapArgsData_length (a m : Nat) (r : List Nat) :
    (swapArgsData a m r).length = 20 + r.length := by
  simp [swapArgsData, encodeU64LE_length, encodeU32LE_length]
  omega

theorem swapArgsData_fields (a m : Nat) (r : List Nat) :
    (swapArgsData a m r).take 8 = encodeU64LE a ∧
    ((swapArgsData a m r).drop 8).take 8 = encodeU64LE m ∧
    ((swapArgsData a m r).drop 16).take 4 = encodeU32LE r.length ∧
    (swapArgsData a m r).drop 20 = r := by
  have h8 : (swapArgsData a m r).drop 8
      = encodeU64LE m ++ (encodeU32LE r.length ++ r) := by
    rw [swapArgsData, List.append_assoc, List.append_assoc,
      List.drop_left' (encodeU64LE_length a)]
  have h16 : (swapArgsData a m r).drop 16 = encodeU32LE r.length ++ r := by
    have e : (16 : Nat) = 8 + 8 := rfl
    rw [e, ← List.drop_drop, h8, List.drop_left' (encodeU64LE_length m)]
  have h20 : (swapArgsData a m r).drop 20 = r := by
    have e : (20 : Nat) = 16 + 4 := rfl
    rw [e, ← List.drop_drop, h16, List.drop_left' (encodeU32LE_length r.length)]
  refine ⟨?_, ?_, ?_, h20⟩
  · rw [swapArgsData, List.append_assoc, List.append_assoc,
      List.take_left' (encodeU64LE_length a)]
  · rw [h8, List.take_left' (encodeU64LE_length m)]
  · rw [h16, List.take_left' (encodeU32LE_length r.length)]

theorem discArgsData_fields (disc : List Nat) (hdisc : disc.length = 8)
    (a m : Nat) (r : List Nat) (ha : a < 2 ^ 64) (hm : m < 2 ^ 64)
    (hr : r.length < 2 ^ 32) :
    (disc ++ swapArgsData a m r).take 8 = disc ∧
    fromLEBytes (((disc ++ swapArgsData a m r).drop 8).take 8) = a ∧
    fromLEBytes (((disc ++ swapArgsData a m r).drop 16).take 8) = m ∧
    fromLEBytes (((disc ++ swapArgsData a m r).drop 24).take 4) = r.length ∧
    (disc ++ swapArgsData a m r).drop 28 = r := by
  obtain ⟨t8, t16, t24, d20⟩ := swapArgsData_fields a m r
  have hd8 : (disc ++ swapArgsData a m r).drop 8 = swapArgsData a m r :=
    List.drop_left' hdisc
  have hd16 : (disc ++ swapArgsData a m r).drop 16 = (swapArgsData a m r).drop 8 := by
    have e : (16 : Nat) = 8 + 8 := rfl
    rw [e, ← List.drop_drop, hd8]
  have hd24 : (disc ++ swapArgsData a m r).drop 24 = (swapArgsData a m r).drop 16 := by
    have e : (24 : Nat) = 8 + 16 := rfl
    rw [e, ← List.drop_drop, hd8]
  have hd28 : (disc ++ swapArgsData a m r).drop 28 = (swapArgsData a m r).drop 20 := by
    have e : (28 : Nat) = 8 + 20 := rfl
    rw [e, ← List.drop_drop, hd8]
  refine ⟨List.take_left' hdisc, ?_, ?_, ?_, ?_⟩
  · rw [hd8, t8, fromLEBytes_encodeU64LE a ha]
  · rw [hd16, t16, fromLEBytes_encodeU64LE m hm]
  · rw [hd24, t24, fromLEBytes_encodeU32LE r.length hr]
  · rw [hd28, d20]

/-- Claim C3: the encoded instruction data of the `swapToSettlement`
(`swap_to_cbbtc`) call is the discriminator `[73,17,223,215,78,128,160,80]`
followed by `amountIn` as 8-byte little-endian, `minAmountOut` as 8-byte
little-endian, the route byte length as 4-byte little-endian `u32`, then the
raw route bytes; the `swapFeeToNative` (`swap_fee_to_sol`) call produces the
same payload shape prefixed by discriminator `[98,85,227,2,32,184,191,80]`. -/
theorem swap_call_encoding_layout :
    ∀ a m : Nat, ∀ r : List Nat, a < 2 ^ 64 → m < 2 ^ 64 → r.length < 2 ^ 32 →
      (swapToCbbtcInstructionData a m r =
          swapToCbbtcDiscriminator ++ encodeU64LE a ++ encodeU64LE m ++
            encodeU32LE r.length ++ r ∧
        (swapToCbbtcInstructionData a m r).take 8 = [73, 17, 223, 215, 78, 128, 160, 80] ∧
        fromLEBytes (((swapToCbbtcInstructionData a m r).drop 8).take 8) = a ∧
        fromLEBytes (((swapToCbbtcInstructionData a m r).drop 16).take 8) = m ∧
        fromLEBytes (((swapToCbbtcInstructionData a m r).drop 24).take 4) = r.length ∧
        (swapToCbbtcInstructionData a m r).drop 28 = r) ∧
      (swapFeeToSolInstructionData a m r =
          swapFeeToSolDiscriminator ++ encodeU64LE a ++ encodeU64LE m ++
            encodeU32LE r.length ++ r ∧
        (swapFeeToSolInstructionData a m r).take 8 = [98, 85, 227, 2, 32, 184, 191, 80] ∧
        fromLEBytes (((swapFeeToSolInstructionData a m r).drop 8).take 8) = a ∧
        fromLEBytes (((swapFeeToSolInstructionData a m r).drop 16).take 8) = m ∧
        fromLEBytes (((swapFeeToSolInstructionData a m r).drop 24).take 4) = r.length ∧
        (swapFeeToSolInstructionData a m r).drop 28 = r) := by
  intro a m r ha hm hr
  obtain ⟨c1, c2, c3, c4, c5⟩ :=
    discArgsData_fields swapToCbbtcDiscriminator rfl a m r ha hm hr
  obtain ⟨d1, d2, d3, d4, d5⟩ :=
    discArgsData_fields swapFeeToSolDiscriminator rfl a m r ha hm hr
  refine ⟨⟨?_, c1, c2, c3, c4, c5⟩, ⟨?_, d1, d2, d3, d4, d5⟩⟩
  · simp [swapToCbbtcInstructionData, swapArgsData, List.append_assoc]
  · simp [swapFeeToSolInstructionData, swapArgsData, List.append_assoc]

theorem swap_call_encoding_layout_witness :
    swapToCbbtcInstructionData 2000000 9 [1, 2, 3] =
        swapToCbbtcDiscriminator ++ encodeU64LE 2000000 ++ encodeU64LE 9 ++
          encodeU32LE ([1, 2, 3] : List Nat).length ++ [1, 2, 3] ∧
      fromLEBytes (((swapToCbbtcInstructionData 2000000 9 [1, 2, 3]).drop 8).take 8)
        = 2000000 := by
  obtain ⟨h, _, h3, _⟩ :=
    (swap_call_encoding_layout 2000000 9 [1, 2, 3] (by norm_num) (by norm_num)
      (by norm_num)).1
  exact ⟨h, h3⟩

theorem decode_roundtrip_general (a m : Nat) (r : List Nat)
    (ha : a < 2 ^ 64) (hm : m < 2 ^ 64) (hr : r.length < 2 ^ 32) :
    decodeSwapPayload (swapToCbbtcInstructionData a m r) = some (a, m, r) := by
  obtain ⟨t8, t16, t24, d20⟩ := swapArgsData_fields a m r
  have hrest : (swapToCbbtcInstructionData a m r).drop 8 = swapArgsData a m r :=
    List.drop_left' rfl
  have hlen : (swapArgsData a m r).length = 20 + r.length := swapArgsData_length a m r
  simp only [decodeSwapPayload, hrest, hlen, t8, t16, t24, d20,
    fromLEBytes_encodeU64LE a ha, fromLEBytes_encodeU64LE m hm,
    fromLEBytes_encodeU32LE r.length hr]
  rw [if_neg (by omega), if_neg (by omega), List.take_length]

/-- Claim C9: encoding then decoding is the identity on `swapToSettlement`
arguments, for every pair of `u64` values and every route byte string of
length 0, 1, or 65535. -/
theorem swap_payload_roundtrip :
    ∀ a m : Nat, ∀ r : List Nat, a < 2 ^ 64 → m < 2 ^ 64 →
      (r.length = 0 ∨ r.length = 1 ∨ r.length = 65535) →
      decodeSwapPayload (swapToCbbtcInstructionData a m r) = some (a, m, r) := by
  intro a m r ha hm hr
  refine decode_roundtrip_general a m r ha hm ?_
  rcases hr with h | h | h <;> rw [h] <;> norm_num

theorem swap_payload_roundtrip_witness :
    decodeSwapPayload (swapToCbbtcInstructionData 3 7 [42]) = some (3, 7, [42]) :=
  swap_payload_roundtrip 3 7 [42] (by norm_num) (by norm_num) (Or.inr (Or.inl rfl))

/-! ### Inversion lemmas for the two builders -/

theorem buildSwapTransaction_ok (env : SwapBuildEnv) (o mint : String) (amt : Nat)
    (tx : SolTransaction) (h : buildSwapTransaction env o mint amt = .ok tx) :
    ∃ jup, env.swapTxInstructions.find? (fun ix => ix.programId == JUPITER_PROGRAM_ID)
        = some jup ∧
      tx = { instructions :=
               [mkCoverFeeInstruction env.vault o env.relayerPubkey
                  (estimatedFee env.feeProbe),
                mkSwapToCbbtcInstruction env o mint amt jup]
             recentBlockhash := some env.blockhash
             feePayer := some env.relayerPubkey } := by
  unfold buildSwapTransaction at h
  split at h
  · exact absurd h (by simp)
  · split at h
    · exact absurd h (by simp)
    · split at h
      · exact absurd h (by simp)
      · split at h
        · exact absurd h (by simp)
        · split at h
          · exact absurd h (by simp)
          · split at h
            · exact absurd h (by simp)
            · rename_i jup hfind
              exact ⟨jup, hfind, by injection h with h'; exact h'.symm⟩

theorem buildSwapFeeToSolTransaction_ok (env : FeeSwapBuildEnv) (o mint : String)
    (amt : Nat) (tx : SolTransaction)
    (h : buildSwapFeeToSolTransaction env o mint amt = .ok tx) :
    ∃ jup, env.swapTxInstructions.find? (fun ix => ix.programId == JUPITER_PROGRAM_ID)
        = some jup ∧
      tx = { instructions :=
               [mkCoverFeeInstruction env.vault o env.relayerPubkey
                  (estimatedFee env.feeProbe),
                mkSwapFeeToSolInstruction env o mint amt jup]
             recentBlockhash := some env.blockhash
             feePayer := some env.relayerPubkey } := by
  unfold buildSwapFeeToSolTransaction at h
  split at h
  · exact absurd h (by simp)
  · split at h
    · exact absurd h (by simp)
    · split at h
      · exact absurd h (by simp)
      · rename_i jup hfind
        exact ⟨jup, hfind, by injection h with h'; exact h'.symm⟩

theorem coverFeeInstructionData_take (f : Nat) :
    (coverFeeInstructionData f).take 8 = coverFeeDiscriminator := by
  rw [coverFeeInstructionData]
  exact List.take_left' rfl

theorem swapToCbbtcInstructionData_take (a m : Nat) (r : List Nat) :
    (swapToCbbtcInstructionData a m r).take 8 = swapToCbbtcDiscriminator := by
  rw [swapToCbbtcInstructionData]
  exact List.take_left' rfl

theorem swapFeeToSolInstructionData_take (a m : Nat) (r : List Nat) :
    (swapFeeToSolInstructionData a m r).take 8 = swapFeeToSolDiscriminator := by
  rw [swapFeeToSolInstructionData]
  exact List.take_left' rfl

/-- Claim C1: for all valid inputs, the instruction list of every assembled
swap transaction — the primary leg from `buildSwapTransaction` and the
fee-conversion leg from `buildSwapFeeToSolTransaction` — equals exactly
`[coverFee, swap]`: two instructions, the fee-coverage instruction first and
the swap instruction second, never the reverse order. -/
theorem assembled_instruction_order :
    (∀ env : SwapBuildEnv, ∀ o mint : String, ∀ amt : Nat, ∀ tx : SolTransaction,
      buildSwapTransaction env o mint amt = .ok tx →
      ∃ jup, env.swapTxInstructions.find? (fun ix => ix.programId == JUPITER_PROGRAM_ID)
          = some jup ∧
        tx.instructions =
          [mkCoverFeeInstruction env.vault o env.relayerPubkey (estimatedFee env.feeProbe),
           mkSwapToCbbtcInstruction env o mint amt jup] ∧
        tx.instructions.map (fun i => i.data.take 8) =
          [coverFeeDiscriminator, swapToCbbtcDiscriminator]) ∧
    (∀ env : FeeSwapBuildEnv, ∀ o mint : String, ∀ amt : Nat, ∀ tx : SolTransaction,
      buildSwapFeeToSolTransaction env o mint amt = .ok tx →
      ∃ jup, env.swapTxInstructions.find? (fun ix => ix.programId == JUPITER_PROGRAM_ID)
          = some jup ∧
        tx.instructions =
          [mkCoverFeeInstruction env.vault o env.relayerPubkey (estimatedFee env.feeProbe),
           mkSwapFeeToSolInstruction env o mint amt jup] ∧
        tx.instructions.map (fun i => i.data.take 8) =
          [coverFeeDiscriminator, swapFeeToSolDiscriminator]) := by
  constructor
  · intro env o mint amt tx h
    obtain ⟨jup, hfind, htx⟩ := buildSwapTransaction_ok env o mint amt tx h
    subst htx
    exact ⟨jup, hfind, rfl, by
      simp [mkCoverFeeInstruction, mkSwapToCbbtcInstruction,
        coverFeeInstructionData_take, swapToCbbtcInstructionData_take]⟩
  · intro env o mint amt tx h
    obtain ⟨jup, hfind, htx⟩ := buildSwapFeeToSolTransaction_ok env o mint amt tx h
    subst htx
    exact ⟨jup, hfind, rfl, by
      simp [mkCoverFeeInstruction, mkSwapFeeToSolInstruction,
        coverFeeInstructionData_take, swapFeeToSolInstructionData_take]⟩

theorem assembled_instruction_order_witness :
    (∃ jup, c1SwapEnv.swapTxInstructions.find?
        (fun ix => ix.programId == JUPITER_PROGRAM_ID) = some jup ∧
      c1SwapTx.instructions =
        [mkCoverFeeInstruction c1SwapEnv.vault "Owner1" c1SwapEnv.relayerPubkey
           (estimatedFee c1SwapEnv.feeProbe),
         mkSwapToCbbtcInstruction c1SwapEnv "Owner1" "MintX" 1000000 jup] ∧
      c1SwapTx.instructions.map (fun i => i.data.take 8) =
        [coverFeeDiscriminator, swapToCbbtcDiscriminator]) ∧
    (∃ jup, c1FeeEnv.swapTxInstructions.find?
        (fun ix => ix.programId == JUPITER_PROGRAM_ID) = some jup ∧
      c1FeeTx.instructions =
        [mkCoverFeeInstruction c1FeeEnv.vault "Owner1" c1FeeEnv.relayerPubkey
           (estimatedFee c1FeeEnv.feeProbe),
         mkSwapFeeToSolInstruction c1FeeEnv "Owner1" "MintX" 4000 jup] ∧
      c1FeeTx.instructions.map (fun i => i.data.take 8) =
        [coverFeeDiscriminator, swapFeeToSolDiscriminator]) :=
  ⟨assembled_instruction_order.1 c1SwapEnv "Owner1" "MintX" 1000000 c1SwapTx rfl,
   assembled_instruction_order.2 c1FeeEnv "Owner1" "MintX" 4000 c1FeeTx rfl⟩

/-- Claim C2: for every deposited amount `amountIn ≥ 0`, the fee split after a
primary swap is `totalFee = floor(amountIn * 100 / 10000)` and
`feeToVault = floor(totalFee * 4 / 10)` in exact integer arithmetic on
`amountIn`; in particular `amountIn = 1000000` yields `totalFee = 10000` and
`feeToVault = 4000`. -/
theorem fee_split_exact :
    (∀ a : Int, 0 ≤ a →
        computeTotalFee a = Int.fdiv (a * 100) 10000 ∧
        computeFeeToVault a = Int.fdiv (computeTotalFee a * 4) 10) ∧
    computeTotalFee 1000000 = 10000 ∧ computeFeeToVault 1000000 = 4000 := by
  refine ⟨fun a ha => ⟨?_, ?_⟩, by decide, by decide⟩
  · rw [computeTotalFee, Int.fdiv_eq_tdiv (by positivity) (by norm_num)]
  · have h0 : (0 : Int) ≤ computeTotalFee a := by
      rw [computeTotalFee]
      exact Int.tdiv_nonneg (by positivity) (by norm_num)
    rw [computeFeeToVault,
      Int.fdiv_eq_tdiv (Int.mul_nonneg h0 (by norm_num)) (by norm_num)]

theorem fee_split_exact_witness :
    computeTotalFee 1000000 = Int.fdiv (1000000 * 100) 10000 ∧
    computeFeeToVault 1000000 = Int.fdiv (computeTotalFee 1000000 * 4) 10 :=
  fee_split_exact.1 1000000 (by norm_num)

/-- Claim C4 counterexample: when the network prices the probe at `0`
lamports, pricing is available and the claim makes the base fee `0` and the
output `0 + margin = 10000`; but the code, via `feeEstimate?.value || 50000`,
treats the `0` as falsy and substitutes the fallback, so the output is
`60000`. -/
theorem fee_estimator_zero_probe_counterexample :
    baseFee (some 0) = 50000 ∧
    specBaseFee (some 0) = 0 ∧
    baseFee (some 0) ≠ specBaseFee (some 0) ∧
    estimatedFee (some 0) = 60000 ∧
    estimatedFee (some 0) ≠ specBaseFee (some 0) + coverFeeInstructionCost :=
  ⟨rfl, rfl, by decide, rfl, by decide⟩

/-- Claim C4 (amended): `estimatedFee = baseFee + margin`, where `baseFee` is
the network price for the probe transaction when that price is nonzero, and
the fixed fallback constant `50000` when pricing is unavailable or the
returned price is zero; the margin is the fixed constant `10000`. Hence for
every probe result, including the fallback path, the output is at least the
probe base fee plus the margin, and this exact value is the `u64` `feeAmount`
argument encoded little-endian after discriminator `[64,23,219,120,75,63,68,190]`
in the coverFee instruction of both assembled legs. -/
theorem fee_estimator_amended :
    (∀ r : Option Nat, estimatedFee r = baseFee r + coverFeeInstructionCost) ∧
    (∀ v : Nat, v ≠ 0 → baseFee (some v) = v) ∧
    baseFee none = fallbackBaseFee ∧
    baseFee (some 0) = fallbackBaseFee ∧
    (∀ v : Nat, v + coverFeeInstructionCost ≤ estimatedFee (some v)) ∧
    fallbackBaseFee + coverFeeInstructionCost ≤ estimatedFee none ∧
    (∀ env : SwapBuildEnv, ∀ o mint : String, ∀ amt : Nat, ∀ tx : SolTransaction,
        buildSwapTransaction env o mint amt = .ok tx →
        ∃ i rest, tx.instructions = i :: rest ∧
          i.data = coverFeeDiscriminator ++ encodeU64LE (estimatedFee env.feeProbe)) ∧
    (∀ env : FeeSwapBuildEnv, ∀ o mint : String, ∀ amt : Nat, ∀ tx : SolTransaction,
        buildSwapFeeToSolTransaction env o mint amt = .ok tx →
        ∃ i rest, tx.instructions = i :: rest ∧
          i.data = coverFeeDiscriminator ++ encodeU64LE (estimatedFee env.feeProbe)) := by
  refine ⟨fun r => rfl, fun v hv => by simp [baseFee, hv], rfl, rfl, fun v => ?_,
    Nat.le_refl _, fun env o mint amt tx h => ?_, fun env o mint amt tx h => ?_⟩
  · by_cases hv : v = 0
    · subst hv
      simp [estimatedFee, baseFee, fallbackBaseFee, coverFeeInstructionCost]
    · simp [estimatedFee, baseFee, hv]
  · obtain ⟨jup, _, htx⟩ := buildSwapTransaction_ok env o mint amt tx h
    subst htx
    exact ⟨_, _, rfl, rfl⟩
  · obtain ⟨jup, _, htx⟩ := buildSwapFeeToSolTransaction_ok env o mint amt tx h
    subst htx
    exact ⟨_, _, rfl, rfl⟩

theorem fee_estimator_amended_witness :
    baseFee (some 7) = 7 ∧
    (∃ i rest, c1SwapTx.instructions = i :: rest ∧
       i.data = coverFeeDiscriminator ++ encodeU64LE (estimatedFee c1SwapEnv.feeProbe)) :=
  ⟨fee_estimator_amended.2.1 7 (by decide),
   fee_estimator_amended.2.2.2.2.2.2.1 c1SwapEnv "Owner1" "MintX" 1000000 c1SwapTx rfl⟩

/-- Claim C5 counterexample: with the vault balance exactly at the 100000
threshold — a balance that does not exceed the threshold — `submitSwapWithVaultFees`
proceeds to submit via the relay instead of refusing locally. -/
theorem submit_at_threshold_counterexample :
    minRequiredBalance = 100000 ∧
    submitSwapWithVaultFees 100000 (Except.ok "relayedSig") = Except.ok "relayedSig" :=
  ⟨rfl, rfl⟩

/-- Claim C5 (amended): submission is refused locally, with an
insufficient-balance error and without consulting the relay, whenever the
vault SOL balance is strictly below the configured minimum threshold
(100000 lamports); whenever the balance is at least the threshold — including
exactly at it — `submitSwapWithVaultFees` proceeds to submit via the relay. -/
theorem submit_balance_guard :
    (∀ b : Nat, ∀ r : Except String String, b < minRequiredBalance →
        submitSwapWithVaultFees b r = .error (insufficientSolMsg b)) ∧
    (∀ b : Nat, ∀ r r' : Except String String, b < minRequiredBalance →
        submitSwapWithVaultFees b r = submitSwapWithVaultFees b r') ∧
    (∀ b : Nat, ∀ r : Except String String, minRequiredBalance ≤ b →
        submitSwapWithVaultFees b r = r) := by
  refine ⟨fun b r h => ?_, fun b r r' h => ?_, fun b r h => ?_⟩
  · rw [submitSwapWithVaultFees, if_pos h]
  · rw [submitSwapWithVaultFees, if_pos h, submitSwapWithVaultFees, if_pos h]
  · rw [submitSwapWithVaultFees, if_neg (Nat.not_lt.mpr h)]

theorem submit_balance_guard_witness :
    submitSwapWithVaultFees 99999 (Except.ok "sig") =
      Except.error (insufficientSolMsg 99999) ∧
    submitSwapWithVaultFees 100000 (Except.ok "sig") = Except.ok "sig" :=
  ⟨submit_balance_guard.1 99999 (Except.ok "sig") (by decide),
   submit_balance_guard.2.2 100000 (Except.ok "sig") (by decide)⟩

theorem markFirstVaultSigner_mem (vault : String) (accs : List AccountMeta)
    (h : accs.any (fun a => a.pubkey == vault) = true) :
    ∃ a, a ∈ markFirstVaultSigner vault accs ∧ a.pubkey = vault ∧ a.isSigner = true := by
  induction accs with
  | nil => simp at h
  | cons a rest ih =>
    by_cases hp : a.pubkey = vault
    · refine ⟨{ a with isSigner := true }, ?_, hp, rfl⟩
      simp [markFirstVaultSigner, hp]
    · have h' : rest.any (fun x => x.pubkey == vault) = true := by
        simp only [List.any_cons, Bool.or_eq_true, beq_iff_eq] at h
        rcases h with h | h
        · exact absurd h hp
        · simpa using h
      obtain ⟨x, hx, hxp, hxs⟩ := ih h'
      refine ⟨x, ?_, hxp, hxs⟩
      simp [markFirstVaultSigner, hp, hx]

/-- Claim C6: in both build legs, the vault address appears in the appended
aggregator account list marked as a signer; and whenever the vault is absent
from the account list returned by the aggregator, it is inserted as the first
account of that list flagged both signer and writable. -/
theorem vault_marked_signer :
    (∀ vault : String, ∀ accs : List AccountMeta,
      ∃ a, a ∈ ensureVaultSigner vault accs ∧ a.pubkey = vault ∧ a.isSigner = true) ∧
    (∀ vault : String, ∀ accs : List AccountMeta,
      (∀ a, a ∈ accs → a.pubkey ≠ vault) →
      ensureVaultSigner vault accs = ⟨vault, true, true⟩ :: accs) ∧
    (∀ env : SwapBuildEnv, ∀ o mint : String, ∀ amt : Nat, ∀ jup : Instruction,
      (mkSwapToCbbtcInstruction env o mint amt jup).keys.drop 10 =
        ensureVaultSigner env.vault jup.keys) ∧
    (∀ env : FeeSwapBuildEnv, ∀ o mint : String, ∀ amt : Nat, ∀ jup : Instruction,
      (mkSwapFeeToSolInstruction env o mint amt jup).keys.drop 8 =
        ensureVaultSigner env.vault jup.keys) := by
  refine ⟨fun vault accs => ?_, fun vault accs h => ?_,
    fun env o mint amt jup => ?_, fun env o mint amt jup => ?_⟩
  · by_cases h : accs.any (fun a => a.pubkey == vault) = true
    · unfold ensureVaultSigner
      rw [if_pos h]
      exact markFirstVaultSigner_mem vault accs h
    · unfold ensureVaultSigner
      rw [if_neg h]
      exact ⟨⟨vault, true, true⟩, List.mem_cons_self _ _, rfl, rfl⟩
  · have hany : accs.any (fun a => a.pubkey == vault) = false := by
      rw [List.any_eq_false]
      intro a ha
      simpa using h a ha
    unfold ensureVaultSigner
    rw [hany]
    rfl
  · simp only [mkSwapToCbbtcInstruction]
    exact List.drop_left' rfl
  · simp only [mkSwapFeeToSolInstruction]
    exact List.drop_left' rfl

theorem vault_marked_signer_witness :
    ensureVaultSigner "Vault111" [⟨"JupAcc1", false, true⟩] =
      ⟨"Vault111", true, true⟩ :: [⟨"JupAcc1", false, true⟩] :=
  vault_marked_signer.2.1 "Vault111" [⟨"JupAcc1", false, true⟩] (by decide)

/-- Claim C7: with the dispatch environment exactly as wired in the source —
whose `getVaultOwnerFromAddress` placeholder always returns `null` — every
token transfer is skipped, including a transfer to a parseable vault address
carrying a non-settlement asset and a positive amount, so the swap pipeline is
never invoked, contrary to the claimed dispatch behaviour. -/
theorem placeholder_owner_lookup_never_dispatches :
    (∀ pk : String → Bool, ∀ cbbtc : String,
      ∀ sl fl : String → String → Nat → Except String String, ∀ t : TokenTransfer,
        processTokenTransfer (sourceDispatchEnv pk cbbtc sl fl) t = .skipped) ∧
    isVaultAddress (fun _ => true) c7FailingTransfer.toTokenAccount = true ∧
    c7FailingTransfer.mint ≠ "CbbtcMint1" ∧
    0 < c7FailingTransfer.tokenAmount ∧
    processTokenTransfer
      (sourceDispatchEnv (fun _ => true) "CbbtcMint1"
        (fun _ _ _ => .ok "swapSig") (fun _ _ _ => .ok "feeSig"))
      c7FailingTransfer = .skipped := by
  refine ⟨fun pk cbbtc sl fl t => ?_, rfl, by decide, by decide, rfl⟩
  simp only [processTokenTransfer, sourceDispatchEnv, getVaultOwnerFromAddress]
  split <;> rfl

/-- Claim C8: the dispatcher processes every transfer of a batch to an
outcome; a failure raised inside the swap pipeline of one transfer becomes a logged
failure outcome and does not affect the processing of the other transfers, and
a batch with one failing and one succeeding transfer yields exactly one
successful submission outcome and exactly one logged failure. -/
theorem batch_failure_isolation :
    (∀ env : DispatchEnv, ∀ t : TokenTransfer, ∀ ts : List TokenTransfer,
        processHeliusTokenTransfers env (t :: ts) =
          processTokenTransfer env t :: processHeliusTokenTransfers env ts) ∧
    (∀ env : DispatchEnv, ∀ ts : List TokenTransfer,
        (processHeliusTokenTransfers env ts).length = ts.length) ∧
    (∀ env : DispatchEnv, ∀ t1 t2 : TokenTransfer,
        processHeliusTokenTransfers env [t1, t2] =
          [processTokenTransfer env t1, processTokenTransfer env t2]) ∧
    (∀ env : DispatchEnv, ∀ t1 t2 : TokenTransfer, ∀ e sig : String,
        ∀ fsig : Option String,
        processTokenTransfer env t1 = .failed e →
        processTokenTransfer env t2 = .submitted sig fsig →
        ((processHeliusTokenTransfers env [t1, t2]).filter isSubmittedOutcome).length
            = 1 ∧
        ((processHeliusTokenTransfers env [t1, t2]).filter isFailedOutcome).length
            = 1) := by
  refine ⟨fun env t ts => rfl, fun env ts => List.length_map ts _,
    fun env t1 t2 => rfl, fun env t1 t2 e sig fsig h1 h2 => ?_⟩
  simp [processHeliusTokenTransfers, h1, h2, isSubmittedOutcome, isFailedOutcome]

theorem batch_failure_isolation_witness :
    ((processHeliusTokenTransfers c8Env [c8T1, c8T2]).filter isSubmittedOutcome).length
        = 1 ∧
    ((processHeliusTokenTransfers c8Env [c8T1, c8T2]).filter isFailedOutcome).length
        = 1 :=
  batch_failure_isolation.2.2.2 c8Env c8T1 c8T2 "swap failed" "swapSig" none rfl rfl

/-- Claim C10: a quote response without an `outAmount` field, or with an empty
one, yields `minAmountOut = 0` in the built swap instruction rather than a
failure, in both the primary swap leg and the fee-conversion leg. -/
theorem missing_outAmount_zero_min :
    outAmountToMin none = 0 ∧ outAmountToMin (some "") = 0 ∧
    (∀ env : SwapBuildEnv, ∀ o mint : String, ∀ amt : Nat, ∀ jup : Instruction,
        (env.quoteOutAmount = none ∨ env.quoteOutAmount = some "") →
        (mkSwapToCbbtcInstruction env o mint amt jup).data =
          swapToCbbtcInstructionData amt 0 jup.data) ∧
    (∀ env : FeeSwapBuildEnv, ∀ o mint : String, ∀ amt : Nat, ∀ jup : Instruction,
        (env.quoteOutAmount = none ∨ env.quoteOutAmount = some "") →
        (mkSwapFeeToSolInstruction env o mint amt jup).data =
          swapFeeToSolInstructionData amt 0 jup.data) := by
  refine ⟨rfl, rfl, ?_, ?_⟩
  · intro env o mint amt jup h
    rcases h with h | h <;> simp [mkSwapToCbbtcInstruction, outAmountToMin, h]
  · intro env o mint amt jup h
    rcases h with h | h <;> simp [mkSwapFeeToSolInstruction, outAmountToMin, h]

theorem missing_outAmount_zero_min_witness :
    (mkSwapToCbbtcInstruction c10SwapEnv "Owner1" "MintX" 5 c1JupiterIx).data =
      swapToCbbtcInstructionData 5 0 c1JupiterIx.data :=
  missing_outAmount_zero_min.2.2.1 c10SwapEnv "Owner1" "MintX" 5 c1JupiterIx (Or.inl rfl)

end OrangeRefinery
